import Mathlib

/-!
Verification development for `behave/runner.py` (tektronix/behave fork):
the layered execution context (`Context`) and the model-runner control loop
(`ModelRunner`).  Python state is embedded shallowly:

* attribute values are `PyVal` (booleans, numbers, strings, `None`, and
  opaque object identities for everything else);
* a context frame (`self._stack` entry) is a `Frame`: its attribute
  dictionary plus the `"@cleanups"` list and the optional `"@layer"` label
  stored in the same dictionary in Python, modelled as dedicated fields;
* Python exceptions raised by an operation are returned as `Option PyErr`
  (or `Except PyErr` for pure reads), together with the state as mutated
  up to the point of the raise;
* cleanup callables and hook callables are external user code: a cleanup is
  identified by the identity of the underlying callable (`Nat`) and an
  environment `Nat → Bool` says which callables raise when invoked; a hook
  is an arbitrary state transformer that may report an exception.
-/

set_option autoImplicit false

/-- Python values stored in context frames.  Opaque user objects are
represented by an identity number. -/
inductive PyVal where
  | bool (b : Bool)
  | nat (n : Nat)
  | str (s : String)
  | noneV
  | obj (id : Nat)
deriving DecidableEq, Repr

/-- Python truthiness (`bool(x)`) for the embedded values. -/
def pyTruthy : PyVal → Bool
  | .bool b => b
  | .nat n => n != 0
  | .str s => s != ""
  | .noneV => false
  | .obj _ => true

/-- The two writer modes of the context (`Context.BEHAVE` / `Context.USER`). -/
inductive Mode where
  | behave
  | user
deriving DecidableEq, Repr

/-- The three message classes `Context._emit_warning` can produce. -/
inductive WarnClass where
  | behaveMasksUser
  | userMasksBehave
  | userMasksOwn
deriving DecidableEq, Repr

/-- Python exceptions that the modelled code can raise. -/
inductive PyErr where
  | keyError (a : String)
  | attributeError (a : String)
  | indexError
  | assertionError
  | exception (id : Nat)
deriving DecidableEq, Repr

/-- First-match lookup in a string-keyed association list (Python `dict`
read; insertion order is preserved and keys are unique). -/
def alLookup {β : Type} : List (String × β) → String → Option β
  | [], _ => Option.none
  | (k, v) :: rest, a => if k == a then some v else alLookup rest a

/-- `dict` membership test. -/
def alHasKey {β : Type} : List (String × β) → String → Bool
  | [], _ => false
  | (k, _) :: rest, a => k == a || alHasKey rest a

/-- Membership in a string key set (`attr in self._record`). -/
def strListHas : List String → String → Bool
  | [], _ => false
  | x :: xs, a => x == a || strListHas xs a

/-- `dict` write: overwrite in place, or append a new key at the end. -/
def alInsert {β : Type} : List (String × β) → String → β → List (String × β)
  | [], a, v => [(a, v)]
  | (k, w) :: rest, a, v =>
      if k == a then (a, v) :: rest else (k, w) :: alInsert rest a v

/-- `del dict[key]`. -/
def alErase {β : Type} (l : List (String × β)) (a : String) : List (String × β) :=
  l.filter (fun p => p.1 != a)

/-- A cleanup list entry of a frame (`frame["@cleanups"]`).  `add_cleanup`
stores either the user callable itself (no extra call arguments) or a fresh
wrapper closure around it (extra call arguments given); Python list
membership compares by object identity, so a wrapper is never equal to any
user callable. -/
inductive CleanupEntry where
  | direct (fnId : Nat)
  | wrapper (fnId : Nat) (wrapId : Nat)
deriving DecidableEq, Repr

/-- The callable that actually runs when a cleanup entry is invoked. -/
def entryFn : CleanupEntry → Nat
  | .direct f => f
  | .wrapper f _ => f

/-- Does the Python expression `cleanup_func in current_frame["@cleanups"]`
see this entry as equal to the raw callable `fnId`?  Only a directly stored
callable compares equal (identity comparison); wrappers are fresh objects. -/
def entryIsFn (fnId : Nat) : CleanupEntry → Bool
  | .direct f => f == fnId
  | .wrapper _ _ => false

/-- One layer of the context stack: the attribute dictionary, the
`"@cleanups"` list and the `"@layer"` label. -/
structure Frame where
  data : List (String × PyVal)
  cleanups : List CleanupEntry
  layer : Option String
deriving DecidableEq, Repr

/-- The state of a `Context` object.

* `stack` is `self._stack` (frame 0 first, root frame last);
* `record` is the key set of `self._record` (per-attribute provenance; the
  recorded call-site data itself is irrelevant to the modelled claims);
* `origin` is `self._origin` (which mode first set each attribute);
* `mode` is `self._mode`;
* `priv` holds reserved-prefix attributes written into `self.__dict__`
  (the structural slots `_stack`, `_record`, `_origin`, `_mode` are the
  fields of this very structure);
* `warnings` logs every `ContextMaskWarning` emitted so far;
* `rootCleanupErrors` is the `_root["cleanup_errors"]` slot, which the code
  touches only through the `self._root` alias in `_do_cleanups`;
* `verbose` is `self._config.verbose`. -/
structure CtxState where
  stack : List Frame
  record : List String
  origin : List (String × Mode)
  mode : Mode
  priv : List (String × PyVal)
  warnings : List (String × WarnClass)
  rootCleanupErrors : Nat
  verbose : Bool
deriving DecidableEq, Repr

/-- Reserved-prefix test `attr[0] == "_"`.  Python would raise `IndexError`
on the empty name; theorems about attribute operations therefore restrict
to nonempty names. -/
def isReserved (a : String) : Bool := a.data.head? == some '_'

/-- Innermost-first search of the frame stack (`__getattr__` loop). -/
def stackLookup : List Frame → String → Option PyVal
  | [], _ => Option.none
  | f :: fs, a =>
      match alLookup f.data a with
      | some v => some v
      | Option.none => stackLookup fs a

/-- `Context._emit_warning` message classification: which warning (if any)
is emitted for current writer mode `m` and recorded origin mode `o`. -/
def maskWarnClass (m : Mode) (o : Mode) (verbose : Bool) : Option WarnClass :=
  if m = Mode.behave && !(o = Mode.behave) then some WarnClass.behaveMasksUser
  else if m = Mode.user then
    if !(o = Mode.user) then some WarnClass.userMasksBehave
    else if verbose then some WarnClass.userMasksOwn
    else Option.none
  else Option.none

/-- The outer-frame scan of `__setattr__` (`for frame in self._stack[1:]`).
For each outer frame holding `a` it reads `self._record[a]` (a `KeyError`
if the provenance record is missing) and calls `_emit_warning`, which reads
`self._origin[a]` (again a `KeyError` if missing) and may emit one warning.
The scan stops at the first raise; warnings emitted before it persist. -/
def maskScanLoop (m : Mode) (verbose : Bool) (record : List String)
    (origin : List (String × Mode)) (a : String) :
    List Frame → List (String × WarnClass) × Option PyErr
  | [] => ([], Option.none)
  | f :: fs =>
      if alHasKey f.data a then
        if strListHas record a then
          match alLookup origin a with
          | some o =>
              let tail := maskScanLoop m verbose record origin a fs
              (((maskWarnClass m o verbose).toList.map (fun c => (a, c))) ++ tail.1,
                tail.2)
          | Option.none => ([], some (PyErr.keyError a))
        else ([], some (PyErr.keyError a))
      else maskScanLoop m verbose record origin a fs

/-- Provenance-record write `self._record[attr] = stack_frame` (key set). -/
def nameInsert (r : List String) (a : String) : List String :=
  if strListHas r a then r else r ++ [a]

/-- `if attr not in self._origin: self._origin[attr] = self._mode`. -/
def originInsert (o : List (String × Mode)) (a : String) (m : Mode) :
    List (String × Mode) :=
  if alHasKey o a then o else o ++ [(a, m)]

/-- `Context.__getattr__`: reserved names read `self.__dict__`, other names
search the frame stack innermost-first; absence raises `AttributeError`. -/
def ctxGetattr (s : CtxState) (a : String) : Except PyErr PyVal :=
  if isReserved a then
    match alLookup s.priv a with
    | some v => Except.ok v
    | Option.none => Except.error (PyErr.attributeError a)
  else
    match stackLookup s.stack a with
    | some v => Except.ok v
    | Option.none => Except.error (PyErr.attributeError a)

/-- `Context.__setattr__`: reserved names go straight to `self.__dict__`.
Otherwise the outer frames are scanned for masking (possibly raising), the
call site is recorded in `self._record`, the value is written into frame 0
(an `IndexError` on an empty stack), and the origin mode is recorded on
first set. -/
def ctxSetattr (s : CtxState) (a : String) (v : PyVal) : CtxState × Option PyErr :=
  if isReserved a then
    ({ s with priv := alInsert s.priv a v }, Option.none)
  else
    let scan := maskScanLoop s.mode s.verbose s.record s.origin a (s.stack.drop 1)
    let s1 := { s with warnings := s.warnings ++ scan.1 }
    match scan.2 with
    | some err => (s1, some err)
    | Option.none =>
        let s2 := { s1 with record := nameInsert s1.record a }
        match s2.stack with
        | [] => (s2, some PyErr.indexError)
        | f :: rest =>
            ({ s2 with
                stack := { f with data := alInsert f.data a v } :: rest,
                origin := originInsert s2.origin a s2.mode }, Option.none)

/-- `Context.__delattr__`: only frame 0 is consulted; a hit deletes the
value and then the provenance record (`KeyError` if the record is missing,
with the value already gone); a miss raises `AttributeError` ("... at the
current level"). -/
def ctxDelattr (s : CtxState) (a : String) : CtxState × Option PyErr :=
  match s.stack with
  | [] => (s, some PyErr.indexError)
  | f :: rest =>
      if alHasKey f.data a then
        let s1 := { s with stack := { f with data := alErase f.data a } :: rest }
        if strListHas s1.record a then
          ({ s1 with record := s1.record.filter (fun n => n != a) }, Option.none)
        else (s1, some (PyErr.keyError a))
      else (s, some (PyErr.attributeError a))

/-- `Context._push`: insert a fresh frame (empty dictionary, empty cleanup
list, optional layer label) at position 0. -/
def ctxPush (s : CtxState) (layer : Option String) : CtxState :=
  { s with stack := { data := [], cleanups := [], layer := layer } :: s.stack }

/-- `Context.add_cleanup`: registering with extra call arguments wraps the
callable in a fresh closure; the duplicate check compares the raw callable
against the stored entries and a hit skips the append. -/
def ctxAddCleanup (s : CtxState) (fnId : Nat) (withArgs : Bool) (wrapId : Nat) :
    CtxState × Option PyErr :=
  match s.stack with
  | [] => (s, some PyErr.assertionError)
  | f :: rest =>
      let entry := if withArgs then CleanupEntry.wrapper fnId wrapId
                   else CleanupEntry.direct fnId
      if f.cleanups.any (entryIsFn fnId) then (s, Option.none)
      else ({ s with stack := { f with cleanups := f.cleanups ++ [entry] } :: rest },
            Option.none)

/-- The `for cleanup_func in reversed(cleanup_funcs)` loop of
`_do_cleanups`, over an already-reversed entry list.  `β` says which
callables raise.  Returns the state (the root cleanup-error counter is the
only mutated slot), the invoked callables in order, the error-handler
invocations, and the captured failures in order. -/
def drainLoop (β : Nat → Bool) :
    List CleanupEntry → CtxState → CtxState × List Nat × List Nat × List Nat
  | [], s => (s, [], [], [])
  | e :: es, s =>
      let fn := entryFn e
      if β fn then
        let s1 := { s with rootCleanupErrors := s.rootCleanupErrors + 1 }
        let rec0 := drainLoop β es s1
        (rec0.1, fn :: rec0.2.1, fn :: rec0.2.2.1, fn :: rec0.2.2.2)
      else
        let rec0 := drainLoop β es s
        (rec0.1, fn :: rec0.2.1, rec0.2.2.1, rec0.2.2.2)

/-- Result of draining a frame's cleanups. -/
structure DrainOut where
  state : CtxState
  invoked : List Nat
  handlerCalls : List Nat
  raised : Option PyErr
deriving DecidableEq, Repr

/-- `Context._do_cleanups`: asserts a nonempty stack, runs every cleanup of
frame 0 in reverse registration order (best effort), then reads the
`fail_on_cleanup_errors` attribute through normal context lookup (an
`AttributeError` if it was deleted) and, when that policy is truthy and
failures were captured, re-raises the first captured failure. -/
def doCleanups (β : Nat → Bool) (s : CtxState) : DrainOut :=
  match s.stack with
  | [] => ⟨s, [], [], some PyErr.assertionError⟩
  | f :: _ =>
      let d := drainLoop β f.cleanups.reverse s
      match stackLookup d.1.stack "fail_on_cleanup_errors" with
      | Option.none =>
          ⟨d.1, d.2.1, d.2.2.1, some (PyErr.attributeError "fail_on_cleanup_errors")⟩
      | some pol =>
          if pyTruthy pol then
            match d.2.2.2 with
            | [] => ⟨d.1, d.2.1, d.2.2.1, Option.none⟩
            | e0 :: _ => ⟨d.1, d.2.1, d.2.2.1, some (PyErr.exception e0)⟩
          else ⟨d.1, d.2.1, d.2.2.1, Option.none⟩

/-- `Context._pop`: `try: self._do_cleanups() finally: self._stack.pop(0)`.
The frame is removed even when draining raised; popping an empty stack
raises `IndexError` from inside the `finally` block. -/
def ctxPop (β : Nat → Bool) (s : CtxState) : DrainOut :=
  let d := doCleanups β s
  match d.state.stack with
  | [] => { d with raised := some PyErr.indexError }
  | _ :: t => { d with state := { d.state with stack := t } }

/-- The root frame built by `Context.__init__` (the `"cleanup_errors"` slot
is the `rootCleanupErrors` field, `"@cleanups"` and `"@layer"` are the
dedicated fields). -/
def rootFrame : Frame :=
  { data := [("aborted", PyVal.bool false), ("failed", PyVal.bool false),
             ("config", PyVal.obj 0), ("active_outline", PyVal.noneV)],
    cleanups := [],
    layer := some "testrun" }

/-- `Context.__init__`: the root frame, empty record/origin, BEHAVE mode,
then the runtime-support attributes set through `__setattr__` in source
order. -/
def initCtx (verbose : Bool) : CtxState :=
  let s0 : CtxState :=
    { stack := [rootFrame], record := [], origin := [], mode := Mode.behave,
      priv := [], warnings := [], rootCleanupErrors := 0, verbose := verbose }
  let s1 := (ctxSetattr s0 "feature" PyVal.noneV).1
  let s2 := (ctxSetattr s1 "text" PyVal.noneV).1
  let s3 := (ctxSetattr s2 "table" PyVal.noneV).1
  let s4 := (ctxSetattr s3 "stdout_capture" PyVal.noneV).1
  let s5 := (ctxSetattr s4 "stderr_capture" PyVal.noneV).1
  let s6 := (ctxSetattr s5 "log_capture" PyVal.noneV).1
  (ctxSetattr s6 "fail_on_cleanup_errors" (PyVal.bool true)).1

/-- Needle/haystack prefix test on character lists. -/
def charsPre : List Char → List Char → Bool
  | [], _ => true
  | _ :: _, [] => false
  | a :: as, b :: bs => a == b && charsPre as bs

/-- Occurrence test on character lists. -/
def charsOccur (needle : List Char) : List Char → Bool
  | [] => charsPre needle []
  | c :: rest => charsPre needle (c :: rest) || charsOccur needle rest

/-- Python `sub in name` substring test. -/
def strContains (hay sub : String) : Bool := charsOccur sub.data hay.data

/-- The configuration fields the modelled core reads.  Reporters are
identified by number. -/
structure Config where
  dryRun : Bool
  stop : Bool
  verbose : Bool
  reporters : List Nat
deriving DecidableEq, Repr

/-- A lifecycle-hook callable: an arbitrary transformer of the context it
receives, optionally reporting a raised exception (hooks raising
`BaseException`s such as `KeyboardInterrupt`, which `except Exception`
does not catch, are outside this model). -/
def HookFn : Type := CtxState → CtxState × Option Nat

/-- The `ModelRunner` state visible to (and mutable by) external feature
execution: the context, plus the runner's own `aborted` flag (the root
`aborted` attribute accessed through the `aborted` property; the modelled
runs never shadow or delete that attribute, so it is carried as a field),
the hook-failure counter, and `len(self.undefined_steps)`. -/
structure MutState where
  ctx : CtxState
  aborted : Bool
  hookFailures : Nat
  undefinedCount : Nat
deriving Repr

/-- `ModelRunner.run_hook`: a no-op for dry runs or unregistered names;
otherwise the hook runs with the context switched to USER mode
(`use_context_with_mode`), the previous mode being restored afterwards
unconditionally.  A raising hook never propagates: the error is printed
(returned as the message list), the hook-failure counter is incremented,
and tag hooks attach to the active scenario/feature, `*_all` hooks set the
abort flag, and entity hooks attach to their entity argument (entity
mutation is external-model mutation, reflected only in the message). -/
def runHook (cfg : Config) (hooks : List (String × HookFn)) (name : String)
    (s : MutState) : MutState × List String :=
  if cfg.dryRun then (s, [])
  else
    match alLookup hooks name with
    | Option.none => (s, [])
    | some h =>
        let saved := s.ctx.mode
        let out := h { s.ctx with mode := Mode.user }
        let c2 := { out.1 with mode := saved }
        match out.2 with
        | Option.none => ({ s with ctx := c2 }, [])
        | some _ =>
            let msg := "HOOK-ERROR in " ++ name
            let s2 := { s with ctx := c2, hookFailures := s.hookFailures + 1 }
            if strContains name "tag" then (s2, [msg])
            else if strContains name "all" then ({ s2 with aborted := true }, [msg])
            else (s2, [msg])

/-- A hook that observes the mode the dispatcher hands it: it applies an
arbitrary context transformer `g` and raises according to `k` applied to
the observed mode. -/
def modeProbe (g : CtxState → CtxState) (k : Mode → Option Nat) : HookFn :=
  fun c => (g c, k c.mode)

/-- Outcome of one external `feature.run(self)` call: an ordinary failed
flag, or a `KeyboardInterrupt` caught at the loop boundary. -/
inductive FeatResult where
  | ret (failed : Bool)
  | interrupt
deriving DecidableEq, Repr

/-- External feature execution: an arbitrary transformer of the runner
state, returning the outcome. -/
def FeatRun : Type := Nat → MutState → MutState × FeatResult

/-- Observation log of one `run_model` call: which features had `run`
invoked, their counted-as-failed outcomes, and every `reporter.feature`
notification as a (reporter, feature) pair. -/
structure RunLog where
  executed : List Nat
  outcomes : List (Nat × Bool)
  reported : List (Nat × Nat)
deriving DecidableEq, Repr

/-- Result of the feature loop. -/
structure LoopOut where
  state : MutState
  log : RunLog
  failedCount : Nat
deriving Repr

/-- The `for feature in features` loop of `run_model`.  While `runFeature`
holds, each feature is executed; an ordinary failure bumps the failure
count and, under `--stop` or an abort, clears `runFeature`; an interrupt
sets the abort flag, counts as a failure and clears `runFeature`.  Every
iteration unconditionally notifies every reporter of the feature. -/
def runLoop (cfg : Config) (featRun : FeatRun) :
    List Nat → Bool → Nat → MutState → RunLog → LoopOut
  | [], _, fc, s, log => ⟨s, log, fc⟩
  | fid :: rest, runFeature, fc, s, log =>
      if runFeature then
        let out := featRun fid s
        match out.2 with
        | FeatResult.ret failed =>
            let fc1 := if failed then fc + 1 else fc
            let rf1 := if failed && (cfg.stop || out.1.aborted) then false
                       else runFeature
            let log1 : RunLog :=
              { executed := log.executed ++ [fid],
                outcomes := log.outcomes ++ [(fid, failed)],
                reported := log.reported ++ cfg.reporters.map (fun r => (r, fid)) }
            runLoop cfg featRun rest rf1 fc1 out.1 log1
        | FeatResult.interrupt =>
            let s2 := { out.1 with aborted := true }
            let log1 : RunLog :=
              { executed := log.executed ++ [fid],
                outcomes := log.outcomes ++ [(fid, true)],
                reported := log.reported ++ cfg.reporters.map (fun r => (r, fid)) }
            runLoop cfg featRun rest false (fc + 1) s2 log1
      else
        let log1 : RunLog :=
          { log with reported := log.reported ++ cfg.reporters.map (fun r => (r, fid)) }
        runLoop cfg featRun rest runFeature fc s log1

/-- Result of `run_model`. -/
structure RunResult where
  state : MutState
  log : RunLog
  failedCount : Nat
  baseline : Nat
  cleanupsFailed : Bool
  verdict : Bool
deriving Repr

/-- `ModelRunner.run_model`: reset the hook-failure counter, dispatch
`before_all`, run the feature loop only while not aborted, dispatch
`after_all`, drain the root layer's cleanups without popping it (failures
recorded as a boolean), and compute the verdict.  Capture setup, formatter
and final reporter notifications are external no-ops here. -/
def runModel (cfg : Config) (hooks : List (String × HookFn)) (featRun : FeatRun)
    (β : Nat → Bool) (features : List Nat) (s0 : MutState) : RunResult :=
  let sA := { s0 with hookFailures := 0 }
  let sB := (runHook cfg hooks "before_all" sA).1
  let runFeature := !sB.aborted
  let baseline := sB.undefinedCount
  let lp := runLoop cfg featRun features runFeature 0 sB ⟨[], [], []⟩
  let sC := (runHook cfg hooks "after_all" lp.state).1
  let d := doCleanups β sC.ctx
  let sD := { sC with ctx := d.state }
  let cleanupsFailed := d.raised.isSome
  let verdict := decide (0 < lp.failedCount) || sD.aborted
      || decide (0 < sD.hookFailures) || decide (baseline < sD.undefinedCount)
      || cleanupsFailed
  ⟨sD, lp.log, lp.failedCount, baseline, cleanupsFailed, verdict⟩

/-- A freshly constructed runner state. -/
def initMut : MutState :=
  { ctx := initCtx false, aborted := false, hookFailures := 0, undefinedCount := 0 }

deriving instance DecidableEq for Except

/-- The store state reached by: set `x` at the root, push a frame, set `x`
in the inner frame (masking it), then delete `x` at the inner frame (which
also deletes the store-global provenance record for `x`). -/
def c2state : CtxState :=
  let sA := (ctxSetattr (initCtx false) "x" (PyVal.nat 1)).1
  let sB := ctxPush sA Option.none
  let sC := (ctxSetattr sB "x" (PyVal.nat 2)).1
  (ctxDelattr sC "x").1

/-- The store state for the C10 witness: `y` set at the root, a pushed
frame, and `y` set again (masked) in the inner frame. -/
def c10state : CtxState :=
  let sA := (ctxSetattr (initCtx false) "y" (PyVal.nat 10)).1
  let sB := ctxPush sA (some "feature")
  (ctxSetattr sB "y" (PyVal.nat 20)).1

/-- The store state that refutes claim C3 as stated: `x` set at the root
(in BEHAVE mode, so its origin is BEHAVE), then a pushed inner frame. -/
def c3maskedBehave : CtxState :=
  ctxPush (ctxSetattr (initCtx false) "x" (PyVal.nat 1)).1 Option.none

/-- The C3 witness state: `x` set at the root in BEHAVE mode, then the
context switched to USER mode (as `use_with_user_mode` does around user
code). -/
def c3state : CtxState :=
  { (ctxSetattr (initCtx false) "x" (PyVal.nat 1)).1 with mode := Mode.user }

/-- The C4/C8 drain scenario: action `1` registered first, action `2`
registered second, both at the root frame. -/
def c4state : CtxState :=
  (ctxAddCleanup ((ctxAddCleanup (initCtx false) 1 false 0).1) 2 false 0).1

/-- Registering the same callable (`5`) twice, both times with extra call
arguments: each registration wraps it in a fresh closure, and the
duplicate check compares the raw callable against the stored wrappers. -/
def c5argsTwice : CtxState :=
  (ctxAddCleanup ((ctxAddCleanup (initCtx false) 5 true 100).1) 5 true 101).1

/-- Registering the same callable (`5`) twice without arguments: the
callable itself is stored, so the second registration is skipped. -/
def c5plainTwice : CtxState :=
  (ctxAddCleanup ((ctxAddCleanup (initCtx false) 5 false 0).1) 5 false 0).1

/-- A pushed frame carrying one failing cleanup (`7`). -/
def c8state : CtxState :=
  (ctxAddCleanup (ctxPush (initCtx false) (some "feature")) 7 false 0).1

theorem alLookup_insert_self {β : Type} (l : List (String × β)) (a : String) (v : β) :
    alLookup (alInsert l a v) a = some v := by
  induction l with
  | nil => simp [alInsert, alLookup]
  | cons p rest ih =>
      obtain ⟨k, w⟩ := p
      by_cases h : (k == a) = true
      · simp [alInsert, h, alLookup]
      · simp [alInsert, h, alLookup, ih]

theorem maskScanLoop_missing_record (m : Mode) (vb : Bool) (r : List String)
    (og : List (String × Mode)) (a : String) (fs : List Frame)
    (hrec : strListHas r a = false)
    (hany : fs.any (fun fr => alHasKey fr.data a) = true) :
    maskScanLoop m vb r og a fs = ([], some (PyErr.keyError a)) := by
  induction fs with
  | nil => simp at hany
  | cons f fs ih =>
      by_cases h : alHasKey f.data a = true
      · simp [maskScanLoop, h, hrec]
      · simp only [List.any_cons, h, Bool.false_or] at hany
        simp [maskScanLoop, h, ih hany]

/-- Claim C2 amended part: whenever `__setattr__` on a non-reserved name
completes without raising, an immediate `__getattr__` returns the value
just written. -/
theorem set_then_get (s : CtxState) (a : String) (v : PyVal)
    (hres : isReserved a = false)
    (hok : (ctxSetattr s a v).2 = Option.none) :
    ctxGetattr (ctxSetattr s a v).1 a = Except.ok v := by
  cases hstk : s.stack with
  | nil => simp [ctxSetattr, hres, hstk, maskScanLoop] at hok
  | cons f rest =>
      cases hscan : (maskScanLoop s.mode s.verbose s.record s.origin a rest).2 with
      | some err =>
          rw [ctxSetattr] at hok
          simp [hres, hstk, hscan] at hok
      | none =>
          rw [ctxSetattr, ctxGetattr]
          simp [hres, hstk, hscan, stackLookup, alLookup_insert_self]

/-- Claim C2 witness: a fresh context, a plain set of a fresh name, and the
read that returns the value just written. -/
theorem set_then_get_witness :
    ctxGetattr (ctxSetattr (initCtx false) "answer" (PyVal.nat 42)).1 "answer"
      = Except.ok (PyVal.nat 42) :=
  set_then_get (initCtx false) "answer" (PyVal.nat 42) (by decide) (by decide)

/-- Claim C2 counterexample: in the reachable store state `c2state` the
claimed set/get round trip fails — `set("x", 3)` raises `KeyError` from the
unguarded provenance lookup and the following `get("x")` returns the old
outer value `1`, not `3`. -/
theorem c2_counterexample :
    (ctxSetattr c2state "x" (PyVal.nat 3)).2 = some (PyErr.keyError "x")
    ∧ ctxGetattr (ctxSetattr c2state "x" (PyVal.nat 3)).1 "x" = Except.ok (PyVal.nat 1)
    ∧ ¬ ctxGetattr (ctxSetattr c2state "x" (PyVal.nat 3)).1 "x" = Except.ok (PyVal.nat 3) := by
  refine ⟨by decide, by decide, by decide⟩

theorem strListHas_filter_self (r : List String) (a : String) :
    strListHas (r.filter (fun n => n != a)) a = false := by
  induction r with
  | nil => rfl
  | cons x xs ih =>
      have ih2 : strListHas (List.filter (fun n => !(n == a)) xs) a = false := by
        simpa [bne] using ih
      cases h : x == a with
      | true => simp [List.filter_cons, bne, h, ih2]
      | false => simp [List.filter_cons, bne, h, strListHas, ih2]

/-- Claim C10: deleting a non-reserved name at the innermost frame removes
its provenance record as well, so while the name still exists in an outer
frame, the next `set` of that name raises `KeyError` from the unguarded
`self._record[attr]` lookup — nothing is written and no warning is
emitted (the state is unchanged). -/
theorem delattr_then_set_keyerror (s : CtxState) (a : String) (v : PyVal)
    (f : Frame) (rest : List Frame)
    (hres : isReserved a = false)
    (hstk : s.stack = f :: rest)
    (hin : alHasKey f.data a = true)
    (hrec : strListHas s.record a = true)
    (houter : rest.any (fun fr => alHasKey fr.data a) = true) :
    (ctxDelattr s a).2 = Option.none
    ∧ strListHas (ctxDelattr s a).1.record a = false
    ∧ (ctxSetattr (ctxDelattr s a).1 a v).2 = some (PyErr.keyError a)
    ∧ (ctxSetattr (ctxDelattr s a).1 a v).1 = (ctxDelattr s a).1 := by
  have hdel : ctxDelattr s a
      = ({ s with stack := { f with data := alErase f.data a } :: rest,
                  record := s.record.filter (fun n => n != a) }, Option.none) := by
    rw [ctxDelattr]
    simp [hstk, hin, hrec]
  have hscan := maskScanLoop_missing_record s.mode s.verbose
      (s.record.filter (fun n => n != a)) s.origin a rest
      (strListHas_filter_self s.record a) houter
  refine ⟨by rw [hdel], ?_, ?_, ?_⟩
  · rw [hdel]
    exact strListHas_filter_self s.record a
  · rw [hdel, ctxSetattr]
    simp [hres, hscan]
  · rw [hdel, ctxSetattr]
    simp [hres, hscan]

/-- Claim C10 witness: deleting `y` at the inner frame, then trying to set
it again while it still exists at the root. -/
theorem delattr_then_set_keyerror_witness :
    (ctxDelattr c10state "y").2 = Option.none
    ∧ strListHas (ctxDelattr c10state "y").1.record "y" = false
    ∧ (ctxSetattr (ctxDelattr c10state "y").1 "y" (PyVal.nat 99)).2
        = some (PyErr.keyError "y")
    ∧ (ctxSetattr (ctxDelattr c10state "y").1 "y" (PyVal.nat 99)).1
        = (ctxDelattr c10state "y").1 :=
  delattr_then_set_keyerror c10state "y" (PyVal.nat 99) _ _
    (by decide) rfl (by decide) (by decide) (by decide)

theorem maskScanLoop_with_record (m : Mode) (vb : Bool) (r : List String)
    (og : List (String × Mode)) (a : String) (o : Mode) (fs : List Frame)
    (hrec : strListHas r a = true) (horig : alLookup og a = some o) :
    maskScanLoop m vb r og a fs
      = (List.flatten ((fs.filter (fun fr => alHasKey fr.data a)).map
          (fun _ => (maskWarnClass m o vb).toList.map (fun c => (a, c)))),
         Option.none) := by
  induction fs with
  | nil => simp [maskScanLoop]
  | cons f fs ih =>
      cases h : alHasKey f.data a with
      | true => simp [maskScanLoop, h, hrec, horig, ih, List.filter_cons]
      | false => simp [maskScanLoop, h, ih, List.filter_cons]

/-- Claim C3 amended: writing an already-visible non-reserved name in a
freshly pushed frame runs the masking classification exactly once (the name
occurs in exactly one outer frame), which emits exactly one warning when
the mode/origin table calls for one and none otherwise; the write lands in
the inner frame only, the outer frames are untouched, `get` then returns
the inner value, and popping the inner frame restores the outer value. -/
theorem push_set_masking (s : CtxState) (a : String) (v w : PyVal) (o : Mode)
    (pv : PyVal) (β : Nat → Bool)
    (hres : isReserved a = false)
    (hvis : stackLookup s.stack a = some w)
    (hone : (s.stack.filter (fun fr => alHasKey fr.data a)).length = 1)
    (hrec : strListHas s.record a = true)
    (horig : alLookup s.origin a = some o)
    (hpol : stackLookup s.stack "fail_on_cleanup_errors" = some pv) :
    (ctxSetattr (ctxPush s Option.none) a v).2 = Option.none
    ∧ (ctxSetattr (ctxPush s Option.none) a v).1.warnings
        = s.warnings ++ (maskWarnClass s.mode o s.verbose).toList.map (fun c => (a, c))
    ∧ (ctxSetattr (ctxPush s Option.none) a v).1.stack.drop 1 = s.stack
    ∧ ctxGetattr (ctxSetattr (ctxPush s Option.none) a v).1 a = Except.ok v
    ∧ (ctxPop β (ctxSetattr (ctxPush s Option.none) a v).1).raised = Option.none
    ∧ (ctxPop β (ctxSetattr (ctxPush s Option.none) a v).1).state.stack = s.stack
    ∧ ctxGetattr (ctxPop β (ctxSetattr (ctxPush s Option.none) a v).1).state a
        = Except.ok w := by
  obtain ⟨f0, hf0⟩ := List.length_eq_one.mp hone
  have hscan : maskScanLoop s.mode s.verbose s.record s.origin a s.stack
      = ((maskWarnClass s.mode o s.verbose).toList.map (fun c => (a, c)), Option.none) := by
    rw [maskScanLoop_with_record s.mode s.verbose s.record s.origin a o s.stack hrec horig,
        hf0]
    simp
  have hset : ctxSetattr (ctxPush s Option.none) a v
      = ({ stack := ⟨[(a, v)], [], Option.none⟩ :: s.stack,
           record := nameInsert s.record a,
           origin := originInsert s.origin a s.mode,
           mode := s.mode, priv := s.priv,
           warnings := s.warnings
             ++ (maskWarnClass s.mode o s.verbose).toList.map (fun c => (a, c)),
           rootCleanupErrors := s.rootCleanupErrors,
           verbose := s.verbose }, Option.none) := by
    rw [ctxSetattr]
    simp [hres, ctxPush, hscan, alInsert]
  have hget : ctxGetattr (ctxSetattr (ctxPush s Option.none) a v).1 a = Except.ok v := by
    rw [hset, ctxGetattr]
    simp [hres, stackLookup, alLookup]
  have hpop : ctxPop β (ctxSetattr (ctxPush s Option.none) a v).1
      = { state := { stack := s.stack,
                     record := nameInsert s.record a,
                     origin := originInsert s.origin a s.mode,
                     mode := s.mode, priv := s.priv,
                     warnings := s.warnings
                       ++ (maskWarnClass s.mode o s.verbose).toList.map (fun c => (a, c)),
                     rootCleanupErrors := s.rootCleanupErrors,
                     verbose := s.verbose },
          invoked := [], handlerCalls := [], raised := Option.none } := by
    rw [hset, ctxPop, doCleanups]
    cases hcase : alLookup ([(a, v)] : List (String × PyVal)) "fail_on_cleanup_errors" with
    | some u => simp [drainLoop, stackLookup, hcase]
    | none => simp [drainLoop, stackLookup, hcase, hpol]
  refine ⟨by rw [hset], by rw [hset], by rw [hset]; rfl, hget,
          by rw [hpop], by rw [hpop], ?_⟩
  rw [hpop, ctxGetattr]
  simp [hres, hvis]

/-- Claim C3 counterexample: `x` is visible from an outer frame and the
inner write succeeds, yet zero masking warnings are emitted (the claim
demands exactly one) — the framework-over-framework row of the
classification table emits nothing. -/
theorem c3_counterexample :
    stackLookup (c3maskedBehave.stack.drop 1) "x" = some (PyVal.nat 1)
    ∧ (ctxSetattr c3maskedBehave "x" (PyVal.nat 2)).2 = Option.none
    ∧ (ctxSetattr c3maskedBehave "x" (PyVal.nat 2)).1.warnings.length = 0 := by
  refine ⟨by decide, by decide, by decide⟩

/-- Claim C3 witness: user code masking a behave-set attribute emits
exactly one warning, the inner value is read back, and popping the inner
frame restores the outer value. -/
theorem push_set_masking_witness :
    (ctxSetattr (ctxPush c3state Option.none) "x" (PyVal.nat 2)).2 = Option.none
    ∧ (ctxSetattr (ctxPush c3state Option.none) "x" (PyVal.nat 2)).1.warnings
        = c3state.warnings ++ [("x", WarnClass.userMasksBehave)]
    ∧ (ctxSetattr (ctxPush c3state Option.none) "x" (PyVal.nat 2)).1.warnings.length = 1
    ∧ ctxGetattr (ctxSetattr (ctxPush c3state Option.none) "x" (PyVal.nat 2)).1 "x"
        = Except.ok (PyVal.nat 2)
    ∧ ctxGetattr (ctxPop (fun _ => false)
          (ctxSetattr (ctxPush c3state Option.none) "x" (PyVal.nat 2)).1).state "x"
        = Except.ok (PyVal.nat 1) := by
  have h := push_set_masking c3state "x" (PyVal.nat 2) (PyVal.nat 1) Mode.behave
      (PyVal.bool true) (fun _ => false) (by decide) (by decide) (by decide)
      (by decide) (by decide) (by decide)
  refine ⟨h.1, ?_, ?_, h.2.2.2.1, h.2.2.2.2.2.2⟩
  · rw [h.2.1]
    decide
  · rw [h.2.1]
    decide

theorem drainLoop_spec (β : Nat → Bool) (es : List CleanupEntry) (s : CtxState) :
    drainLoop β es s
      = ({ s with rootCleanupErrors :=
             s.rootCleanupErrors + ((es.map entryFn).filter β).length },
         es.map entryFn, (es.map entryFn).filter β, (es.map entryFn).filter β) := by
  induction es generalizing s with
  | nil => simp [drainLoop]
  | cons e es ih =>
      cases h : β (entryFn e) with
      | true =>
          simp [drainLoop, h, ih, List.filter_cons]
          omega
      | false => simp [drainLoop, h, ih, List.filter_cons]

/-- Claim C4: draining a frame's cleanups invokes every registered action
in reverse registration order (even after failures), counts every failure
on the root counter and reports it to the error handler, and — when the
fail-on-cleanup-errors policy is truthy — re-raises exactly the first
captured failure (the most-recently-registered failing action) after all
actions have run, or nothing when no action failed. -/
theorem cleanups_drain (β : Nat → Bool) (s : CtxState) (f : Frame)
    (rest : List Frame) (pol : PyVal)
    (hstk : s.stack = f :: rest)
    (hpol : stackLookup s.stack "fail_on_cleanup_errors" = some pol)
    (htru : pyTruthy pol = true) :
    (doCleanups β s).invoked = f.cleanups.reverse.map entryFn
    ∧ (doCleanups β s).handlerCalls = (f.cleanups.reverse.map entryFn).filter β
    ∧ (doCleanups β s).state.rootCleanupErrors
        = s.rootCleanupErrors + ((f.cleanups.reverse.map entryFn).filter β).length
    ∧ (doCleanups β s).state.stack = s.stack
    ∧ (doCleanups β s).raised
        = (((f.cleanups.reverse.map entryFn).filter β).head?).map PyErr.exception := by
  have hd := drainLoop_spec β f.cleanups.reverse s
  unfold doCleanups
  rw [hstk]
  simp only [hd, hpol, htru, eq_self_iff_true, if_true]
  cases hfl : List.filter β (List.map entryFn f.cleanups.reverse) with
  | nil =>
      simp only [hfl, List.head?_nil, Option.map_none']
      exact ⟨trivial, trivial, trivial, hstk, trivial⟩
  | cons e0 tl =>
      simp only [hfl, List.head?_cons, Option.map_some']
      exact ⟨trivial, trivial, trivial, hstk, trivial⟩

/-- Claim C4 witness: with both actions failing, both run (most recent
first), both are counted and reported, and the re-raised failure is the
most-recently-registered one (`2`), not the other (`1`). -/
theorem cleanups_drain_witness :
    (doCleanups (fun _ => true) c4state).invoked = [2, 1]
    ∧ (doCleanups (fun _ => true) c4state).handlerCalls = [2, 1]
    ∧ (doCleanups (fun _ => true) c4state).state.rootCleanupErrors = 2
    ∧ (doCleanups (fun _ => true) c4state).raised = some (PyErr.exception 2) := by
  have h := cleanups_drain (fun _ => true) c4state _ _ (PyVal.bool true)
      rfl (by decide) (by decide)
  refine ⟨?_, ?_, ?_, ?_⟩
  · rw [h.1]; decide
  · rw [h.2.1]; decide
  · rw [h.2.2.1]; decide
  · rw [h.2.2.2.2]; decide

/-- Claim C5 evaluated on the code: registering the same action twice with
extra call arguments makes it run twice at drain time (the `AVOID
DUPLICATES` check never fires for wrapped registrations), while the
no-argument double registration is deduplicated as documented. -/
theorem add_cleanup_dup_with_args_runs_twice :
    (doCleanups (fun _ => false) c5argsTwice).invoked = [5, 5]
    ∧ (doCleanups (fun _ => false) c5plainTwice).invoked = [5] := by
  refine ⟨by decide, by decide⟩

theorem doCleanups_stack (β : Nat → Bool) (s : CtxState) :
    (doCleanups β s).state.stack = s.stack := by
  unfold doCleanups
  split
  · rfl
  · simp only [drainLoop_spec]
    split
    · rfl
    · split
      · split <;> rfl
      · rfl

/-- Claim C8: `_pop` removes the innermost frame even when draining its
cleanups raised; the drain's error (if any) is what propagates, and it
reaches the caller with the frame already removed, so the stack always
shrinks by exactly one. -/
theorem pop_always_removes (β : Nat → Bool) (s : CtxState) (f : Frame)
    (rest : List Frame) (hstk : s.stack = f :: rest) :
    (ctxPop β s).state.stack = rest
    ∧ (ctxPop β s).state.stack.length + 1 = s.stack.length
    ∧ (ctxPop β s).raised = (doCleanups β s).raised := by
  have hds : (doCleanups β s).state.stack = f :: rest :=
    (doCleanups_stack β s).trans hstk
  unfold ctxPop
  simp only [hds]
  refine ⟨trivial, ?_, trivial⟩
  rw [hstk]
  rfl

/-- Claim C8 witness: popping a frame whose only cleanup fails still
removes the frame (depth shrinks by one) while the cleanup failure is the
propagated error. -/
theorem pop_always_removes_witness :
    (ctxPop (fun _ => true) c8state).state.stack.length + 1 = c8state.stack.length
    ∧ (ctxPop (fun _ => true) c8state).raised = some (PyErr.exception 7) := by
  have h := pop_always_removes (fun _ => true) c8state _ _ rfl
  refine ⟨h.2.1, ?_⟩
  rw [h.2.2]
  decide

/-- Claim C9: `run_hook` restores the store's writer mode unconditionally
(first conjunct, for every hook — including raising ones and no-op
dispatches), and the mode the hook itself observes is `USER`: a probe hook
that raises exactly when the observed mode is not `USER` never bumps the
hook-failure counter unless `USER` was observed (second conjunct). -/
theorem run_hook_user_mode (cfg : Config) (hooks : List (String × HookFn))
    (name : String) (s : MutState) :
    (runHook cfg hooks name s).1.ctx.mode = s.ctx.mode
    ∧ (∀ (g : CtxState → CtxState) (k : Mode → Option Nat),
        cfg.dryRun = false →
        (runHook cfg [(name, modeProbe g k)] name s).1.hookFailures
          = s.hookFailures + (if (k Mode.user).isSome then 1 else 0)) := by
  constructor
  · simp only [runHook]
    split
    · rfl
    · split
      · rfl
      · split
        · rfl
        · split
          · rfl
          · split <;> rfl
  · intro g k hdry
    simp only [runHook, hdry, Bool.false_eq_true, if_false, alLookup,
               beq_self_eq_true, eq_self_iff_true, if_true, modeProbe]
    cases hk : k Mode.user with
    | none => simp [hk]
    | some e =>
        simp only [hk]
        split
        · rfl
        · split <;> rfl

/-- Claim C9 witness: dispatching a registered probe hook observes `USER`
mode (counter bumps by one) and the caller sees the mode unchanged. -/
theorem run_hook_user_mode_witness :
    (runHook ⟨false, false, false, []⟩
        [("before_scenario",
          modeProbe id (fun m => if m == Mode.user then some 5 else Option.none))]
        "before_scenario" initMut).1.hookFailures = initMut.hookFailures + 1
    ∧ (runHook ⟨false, false, false, []⟩
        [("before_scenario",
          modeProbe id (fun m => if m == Mode.user then some 5 else Option.none))]
        "before_scenario" initMut).1.ctx.mode = initMut.ctx.mode := by
  have h := run_hook_user_mode ⟨false, false, false, []⟩
      [("before_scenario",
        modeProbe id (fun m => if m == Mode.user then some 5 else Option.none))]
      "before_scenario" initMut
  refine ⟨?_, h.1⟩
  rw [h.2 id (fun m => if m == Mode.user then some 5 else Option.none) rfl]
  decide

theorem runHook_aborted_true (cfg : Config) (hooks : List (String × HookFn))
    (name : String) (s : MutState) (h : s.aborted = true) :
    (runHook cfg hooks name s).1.aborted = true := by
  simp only [runHook]
  split
  · exact h
  · split
    · exact h
    · split
      · exact h
      · split
        · exact h
        · split
          · rfl
          · exact h

theorem runLoop_skip (cfg : Config) (fr : FeatRun) (feats : List Nat) :
    ∀ (fc : Nat) (s : MutState) (log : RunLog),
    (runLoop cfg fr feats false fc s log).state = s
    ∧ (runLoop cfg fr feats false fc s log).log.executed = log.executed
    ∧ (runLoop cfg fr feats false fc s log).failedCount = fc := by
  induction feats with
  | nil => intro fc s log; exact ⟨rfl, rfl, rfl⟩
  | cons fid rest ih =>
      intro fc s log
      simp only [runLoop, Bool.false_eq_true, if_false]
      exact ih fc s _

theorem runLoop_reported (cfg : Config) (fr : FeatRun) (feats : List Nat) :
    ∀ (rf : Bool) (fc : Nat) (s : MutState) (log : RunLog),
    (runLoop cfg fr feats rf fc s log).log.reported
      = log.reported
        ++ List.flatten (feats.map (fun fid => cfg.reporters.map (fun r => (r, fid)))) := by
  induction feats with
  | nil => intro rf fc s log; simp [runLoop]
  | cons fid rest ih =>
      intro rf fc s log
      cases rf with
      | false =>
          simp only [runLoop, Bool.false_eq_true, if_false]
          rw [ih]
          simp
      | true =>
          simp only [runLoop, eq_self_iff_true, if_true]
          cases hout : (fr fid s).2 with
          | ret failed =>
              simp only [hout]
              rw [ih]
              simp
          | interrupt =>
              simp only [hout]
              rw [ih]
              simp

theorem runLoop_outcomes (cfg : Config) (fr : FeatRun) (feats : List Nat) :
    ∀ (rf : Bool) (fc : Nat) (s : MutState) (log : RunLog),
    ∃ d, (runLoop cfg fr feats rf fc s log).log.outcomes = log.outcomes ++ d
      ∧ (runLoop cfg fr feats rf fc s log).failedCount
          = fc + (d.filter (fun p => p.2)).length := by
  induction feats with
  | nil => intro rf fc s log; exact ⟨[], by simp [runLoop], by simp [runLoop]⟩
  | cons fid rest ih =>
      intro rf fc s log
      cases rf with
      | false =>
          simp only [runLoop, Bool.false_eq_true, if_false]
          obtain ⟨d, h1, h2⟩ := ih false fc s _
          exact ⟨d, h1, h2⟩
      | true =>
          simp only [runLoop, eq_self_iff_true, if_true]
          cases hout : (fr fid s).2 with
          | ret failed =>
              simp only [hout]
              obtain ⟨d, h1, h2⟩ := ih
                  (if failed && (cfg.stop || (fr fid s).1.aborted) then false else true)
                  (if failed then fc + 1 else fc) (fr fid s).1
                  ⟨log.executed ++ [fid], log.outcomes ++ [(fid, failed)],
                   log.reported ++ List.map (fun r => (r, fid)) cfg.reporters⟩
              refine ⟨(fid, failed) :: d, ?_, ?_⟩
              · rw [h1]
                simp
              · rw [h2]
                cases failed
                · simp [List.filter_cons]
                · simp [List.filter_cons]
                  omega
          | interrupt =>
              simp only [hout]
              obtain ⟨d, h1, h2⟩ := ih false (fc + 1)
                  { (fr fid s).1 with aborted := true }
                  ⟨log.executed ++ [fid], log.outcomes ++ [(fid, true)],
                   log.reported ++ List.map (fun r => (r, fid)) cfg.reporters⟩
              refine ⟨(fid, true) :: d, ?_, ?_⟩
              · rw [h1]
                simp
              · rw [h2]
                simp [List.filter_cons]
                omega

/-- Claim C7: every feature in the collection produces one
`reporter.feature` notification per reporter on every run, whatever the
hooks, the feature outcomes, interrupts, or abort state do (first
conjunct, for arbitrary inputs); and in the concrete stop-on-failure run
with two features where the first fails, the second is still reported but
never executed (remaining conjuncts). -/
theorem run_model_reports_every_feature (cfg : Config)
    (hooks : List (String × HookFn)) (featRun : FeatRun) (β : Nat → Bool)
    (features : List Nat) (s0 : MutState) :
    (runModel cfg hooks featRun β features s0).log.reported
      = List.flatten (features.map (fun fid => cfg.reporters.map (fun r => (r, fid))))
    ∧ (runModel ⟨false, true, false, [0]⟩ [] (fun fid s => (s, FeatResult.ret (fid == 1)))
        (fun _ => false) [1, 2] initMut).log.executed = [1]
    ∧ (runModel ⟨false, true, false, [0]⟩ [] (fun fid s => (s, FeatResult.ret (fid == 1)))
        (fun _ => false) [1, 2] initMut).log.reported = [(0, 1), (0, 2)] := by
  refine ⟨?_, by decide, by decide⟩
  simp only [runModel]
  rw [runLoop_reported]
  simp

theorem filter_length_pos_iff {α : Type} (p : α → Bool) (l : List α) :
    0 < (l.filter p).length ↔ ∃ x ∈ l, p x = true := by
  induction l with
  | nil => simp
  | cons x xs ih => cases h : p x <;> simp [List.filter_cons, h, ih]

/-- Claim C1: `run_model` returns `failed = true` exactly when some
executed feature counted as failed (ordinary failure or interrupt), or the
run ended aborted, or the hook-failure counter is positive, or the
unmatched-step count grew past the baseline recorded early in the call, or
draining the root scope's cleanups failed. -/
theorem run_model_verdict (cfg : Config) (hooks : List (String × HookFn))
    (featRun : FeatRun) (β : Nat → Bool) (features : List Nat) (s0 : MutState) :
    (runModel cfg hooks featRun β features s0).verdict = true
    ↔ ((∃ p ∈ (runModel cfg hooks featRun β features s0).log.outcomes, p.2 = true)
       ∨ (runModel cfg hooks featRun β features s0).state.aborted = true
       ∨ 0 < (runModel cfg hooks featRun β features s0).state.hookFailures
       ∨ (runModel cfg hooks featRun β features s0).baseline
           < (runModel cfg hooks featRun β features s0).state.undefinedCount
       ∨ (runModel cfg hooks featRun β features s0).cleanupsFailed = true) := by
  simp only [runModel]
  obtain ⟨d, h1, h2⟩ := runLoop_outcomes cfg featRun features
      (!(runHook cfg hooks "before_all" { s0 with hookFailures := 0 }).1.aborted) 0
      (runHook cfg hooks "before_all" { s0 with hookFailures := 0 }).1 ⟨[], [], []⟩
  rw [h1, h2]
  simp [filter_length_pos_iff, Bool.or_eq_true, decide_eq_true_eq, or_assoc]

/-- Claim C6: when the registered `before_all` hook raises, the dispatcher
returns normally (no exception escapes `run_hook`, which is total), the
abort flag is set, no feature is ever executed, and `run_model` returns
`failed = true` — for any feature collection, the empty one included. -/
theorem before_all_failure_aborts (cfg : Config) (hooks : List (String × HookFn))
    (h : HookFn) (featRun : FeatRun) (β : Nat → Bool) (features : List Nat)
    (s0 : MutState)
    (hdry : cfg.dryRun = false)
    (hreg : alLookup hooks "before_all" = some h)
    (hraise : ∀ c, ((h c).2).isSome = true) :
    (runModel cfg hooks featRun β features s0).verdict = true
    ∧ (runModel cfg hooks featRun β features s0).state.aborted = true
    ∧ (runModel cfg hooks featRun β features s0).log.executed = [] := by
  have hba : (runHook cfg hooks "before_all" { s0 with hookFailures := 0 }).1.aborted
      = true := by
    simp only [runHook, hdry, Bool.false_eq_true, if_false, hreg]
    obtain ⟨e, he⟩ := Option.isSome_iff_exists.mp
        (hraise { ({ s0 with hookFailures := 0 } : MutState).ctx with mode := Mode.user })
    simp only [he]
    rw [show strContains "before_all" "tag" = false from by decide]
    rw [show strContains "before_all" "all" = true from by decide]
    simp
  have hskip := runLoop_skip cfg featRun features 0
      (runHook cfg hooks "before_all" { s0 with hookFailures := 0 }).1 ⟨[], [], []⟩
  have habort : (runHook cfg hooks "after_all"
      (runHook cfg hooks "before_all" { s0 with hookFailures := 0 }).1).1.aborted
      = true :=
    runHook_aborted_true cfg hooks "after_all" _ hba
  simp only [runModel, hba, Bool.not_true, hskip.1, hskip.2.1, habort]
  simp

/-- Claim C6 witness: a raising `before_all` hook with an empty feature
collection still yields a failed, aborted run with nothing executed. -/
theorem before_all_failure_aborts_witness :
    (runModel ⟨false, false, false, []⟩ [("before_all", fun c => (c, some 1))]
        (fun _ s => (s, FeatResult.ret false)) (fun _ => false) [] initMut).verdict = true
    ∧ (runModel ⟨false, false, false, []⟩ [("before_all", fun c => (c, some 1))]
        (fun _ s => (s, FeatResult.ret false)) (fun _ => false) [] initMut).state.aborted
        = true
    ∧ (runModel ⟨false, false, false, []⟩ [("before_all", fun c => (c, some 1))]
        (fun _ s => (s, FeatResult.ret false)) (fun _ => false) [] initMut).log.executed
        = [] :=
  before_all_failure_aborts ⟨false, false, false, []⟩
    [("before_all", fun c => (c, some 1))] (fun c => (c, some 1))
    (fun _ s => (s, FeatResult.ret false)) (fun _ => false) [] initMut
    rfl rfl (fun _ => rfl)
